import Mathlib

/-!
Shallow embedding of the client-side statistical aggregation utilities of the
query-insights dashboard plugin: the percentile calculator, the shard/node
aggregators, the query-phase allocator and the rolling-window anomaly
detector.  JavaScript numbers are modelled as exact rationals (ℚ); JavaScript
arrays as lists; optional record fields as `Option`.  `Array.prototype.sort`
with a numeric comparator is modelled by `List.insertionSort (· ≤ ·)`, which
produces the same (unique) sorted arrangement of a list of numbers.
-/

namespace QueryInsights

/-- Percentile calculator, from `percentile` in
`src/public/pages/LatencyAnalysis/components/ShardHeatMap.tsx` (the functions
`percentileCalc` in `LatencyAnalysis/utils/dataLoader.ts` and `percentile` in
`QueryExecutionWaterfall.tsx` have the identical body).  The function does NOT
sort its input; callers pass an already sorted array.  The JS expression
`index % 1` equals `index - Math.floor(index)` for the nonnegative indices
that arise from `0 ≤ p`; out-of-range array reads (impossible for
`0 ≤ p ≤ 1`) are modelled with `getD`. -/
def percentile (arr : List ℚ) (p : ℚ) : ℚ :=
  if arr.length = 0 then 0
  else
    let index : ℚ := p * ((arr.length : ℚ) - 1)
    let lower : ℤ := ⌊index⌋
    let upper : ℤ := ⌈index⌉
    let weight : ℚ := index - (⌊index⌋ : ℚ)
    if (arr.length : ℤ) ≤ upper then arr.getD (arr.length - 1) 0
    else arr.getD lower.toNat 0 * (1 - weight) + arr.getD upper.toNat 0 * weight

/-- The linear-interpolation map underlying `percentile`: the value
interpolated between the order statistics at `⌊x⌋` and `⌈x⌉`.  For a
nonempty `arr` and `0 ≤ p ≤ 1`, `percentile arr p = interpAt arr
(p * (arr.length - 1))` (`percentile_eq_interpAt` below); used to reason
about monotonicity. -/
def interpAt (l : List ℚ) (x : ℚ) : ℚ :=
  l.getD ⌊x⌋.toNat 0 * (1 - Int.fract x) + l.getD ⌈x⌉.toNat 0 * Int.fract x

/-- JS `array.sort((a, b) => a - b)` on an array of numbers. -/
def jsSortNums (l : List ℚ) : List ℚ :=
  List.insertionSort (· ≤ ·) l

/-- JS `Math.max(...l)` for a nonempty list (the empty case, `-Infinity` in
JS, is unreachable in the aggregation paths modelled here and is mapped to
the fold seed). -/
def listMax (l : List ℚ) : ℚ :=
  l.foldl max (l.headD 0)

/-- JS `Math.min(...l)` for a nonempty list. -/
def listMin (l : List ℚ) : ℚ :=
  l.foldl min (l.headD 0)

/-- Insertion-ordered key set of a JS `Map` built by repeated
`map.set(key, ...)`: first occurrence order, structural recursion. -/
def dedupKeysAux : List String → List String → List String
  | _, [] => []
  | seen, k :: ks =>
    if k ∈ seen then dedupKeysAux seen ks
    else k :: dedupKeysAux (k :: seen) ks

/-- Keys of a JS `Map` populated in traversal order. -/
def dedupKeys (l : List String) : List String :=
  dedupKeysAux [] l

/-! ### Query-phase allocator
From `calculateDynamicPhaseAllocation` and `computePhaseTimingFromRecord` in
`src/public/pages/LatencyAnalysis/components/QueryExecutionWaterfall.tsx`.
In the source the complexity signals are derived from a record by
`analyzeQueryComplexity` / `extractResultSize` / `hasQueryAggregations`;
the claims quantify over every signal combination, so the signals are taken
here as inputs.  `level` ranges over the strings 'simple' | 'medium' |
'complex' and `scanType` over 'index' | 'full_scan' produced by
`analyzeQueryComplexity`; its remaining fields (`fieldCount`,
`executionStrategy`, `fieldsToLoad`, `hasSorting`) are display-only and are
not read by the allocator. -/

inductive ComplexityLevel
  | simple
  | medium
  | complex
deriving DecidableEq

inductive ScanType
  | index
  | full_scan
deriving DecidableEq

structure QueryComplexity where
  level : ComplexityLevel
  scanType : ScanType
deriving DecidableEq

structure PhaseAllocationInput where
  totalLatency : ℚ
  queryComplexity : QueryComplexity
  shardCount : ℕ
  resultSize : ℚ
  hasAggregations : Bool
deriving DecidableEq

structure PhaseAllocation where
  parsing : ℚ
  planning : ℚ
  query : ℚ
  fetch : ℚ
  reduce : ℚ
deriving DecidableEq

/-- `calculateDynamicPhaseAllocation` (QueryExecutionWaterfall.tsx):
base fractions 3/7/50/25/15 %, sequential additive adjustments per signal,
then renormalization by the post-adjustment sum. -/
def calculateDynamicPhaseAllocation (input : PhaseAllocationInput) : PhaseAllocation :=
  let parsing : ℚ := 0.03
  let planning : ℚ := 0.07
  let query : ℚ := 0.50
  let fetch : ℚ := 0.25
  let reduce : ℚ := 0.15
  -- Adjust based on query complexity
  let parsing := if input.queryComplexity.level = .complex then parsing + 0.02
    else if input.queryComplexity.level = .medium then parsing + 0.01 else parsing
  let planning := if input.queryComplexity.level = .complex then planning + 0.05
    else if input.queryComplexity.level = .medium then planning + 0.02 else planning
  let query := if input.queryComplexity.level = .complex then query + 0.10
    else if input.queryComplexity.level = .medium then query + 0.05 else query
  -- Adjust based on shard count
  let planning := if 5 < input.shardCount then planning + 0.03 else planning
  let query := if 5 < input.shardCount then query + 0.05 else query
  let reduce := if 5 < input.shardCount then reduce + 0.05 else reduce
  -- Adjust based on result size
  let fetch := if 1000 < input.resultSize then fetch + 0.10 else fetch
  let reduce := if 1000 < input.resultSize then reduce + 0.05 else reduce
  -- Adjust for aggregations
  let query := if input.hasAggregations then query + 0.05 else query
  let reduce := if input.hasAggregations then reduce + 0.10 else reduce
  -- Adjust for expensive operations
  let query := if input.queryComplexity.scanType = .full_scan then query + 0.15 else query
  let fetch := if input.queryComplexity.scanType = .full_scan then fetch - 0.05 else fetch
  -- Normalize to ensure total = 1.0
  let total := parsing + planning + query + fetch + reduce
  { parsing := parsing / total
    planning := planning / total
    query := query / total
    fetch := fetch / total
    reduce := reduce / total }

structure ExecutionPhase where
  name : String
  duration : ℚ
  startTime : ℚ
  color : String
  description : String
deriving DecidableEq

instance : Inhabited ExecutionPhase := ⟨⟨"", 0, 0, "", ""⟩⟩

/-- `computePhaseTimingFromRecord` (QueryExecutionWaterfall.tsx); the phase
list of `computePhaseTimingFromQuery` has the same durations and start
times.  `totalLatency` is `record.avgLatency`; the signals are derived from
the record in the source and are taken as inputs here. -/
def computePhaseTimingFromRecord (totalLatency : ℚ) (queryComplexity : QueryComplexity)
    (shardCount : ℕ) (resultSize : ℚ) (hasAggregations : Bool) : List ExecutionPhase :=
  let phaseAllocation := calculateDynamicPhaseAllocation
    ⟨totalLatency, queryComplexity, shardCount, resultSize, hasAggregations⟩
  [ { name := "Query Parsing"
      duration := totalLatency * phaseAllocation.parsing
      startTime := 0
      color := "#6DCCB1"
      description := "Parse and validate query DSL" },
    { name := "Query Planning"
      duration := totalLatency * phaseAllocation.planning
      startTime := totalLatency * phaseAllocation.parsing
      color := "#54B399"
      description := "Generate execution plan and shard targeting" },
    { name := "Query Phase"
      duration := totalLatency * phaseAllocation.query
      startTime := totalLatency * (phaseAllocation.parsing + phaseAllocation.planning)
      color := "#6092C0"
      description := "Execute query on each shard" },
    { name := "Fetch Phase"
      duration := totalLatency * phaseAllocation.fetch
      startTime := totalLatency *
        (phaseAllocation.parsing + phaseAllocation.planning + phaseAllocation.query)
      color := "#D36086"
      description := "Retrieve document contents" },
    { name := "Reduce Phase"
      duration := totalLatency * phaseAllocation.reduce
      startTime := totalLatency * (1 - phaseAllocation.reduce)
      color := "#9170B8"
      description := "Merge and sort results" } ]

/-! ### Shard/node data model
From the interfaces in `src/public/pages/LatencyAnalysis/utils/dataLoader.ts`.
Only the fields read by the aggregation functions are modelled; purely
presentational payload fields (query text, timestamps, colors, ...) are
omitted. -/

inductive ShardStatus
  | success
  | failed
  | timeout
deriving DecidableEq

inductive NodeStatus
  | healthy
  | degraded
  | failed
deriving DecidableEq

structure ShardPerformance where
  shardId : String
  nodeId : String
  latency : ℚ
  status : ShardStatus
  docCount : ℚ
  p50Latency : Option ℚ
  p90Latency : Option ℚ
  p95Latency : Option ℚ
  p99Latency : Option ℚ
  latencyDistribution : Option (List ℚ)
deriving DecidableEq

instance : Inhabited ShardPerformance :=
  ⟨⟨"", "", 0, .success, 0, none, none, none, none, none⟩⟩

/-- `NodePerformance`; the percentile fields are attached beyond the declared
TS interface by `generateNodePerformanceFromShards` and read back through an
`as any` cast in `ShardHeatMap.tsx`, hence optional. -/
structure NodePerformance where
  nodeId : String
  avgLatency : ℚ
  status : NodeStatus
  p50Latency : Option ℚ
  p90Latency : Option ℚ
  p95Latency : Option ℚ
  p99Latency : Option ℚ
deriving DecidableEq

instance : Inhabited NodePerformance :=
  ⟨⟨"", 0, .healthy, none, none, none, none⟩⟩

structure LatencyRecord where
  shardPerformance : List ShardPerformance
  nodePerformance : List NodePerformance
deriving DecidableEq

instance : Inhabited LatencyRecord := ⟨⟨[], []⟩⟩

/-! ### Node aggregation in the data loader
From `generateNodePerformanceFromShards` in
`src/public/pages/LatencyAnalysis/utils/dataLoader.ts`. -/

/-- JS `shard.p99Latency || shard.latency`: `0` is falsy, so a present but
zero p99 also falls back to `latency`. -/
def shardP99OrLatency (s : ShardPerformance) : ℚ :=
  match s.p99Latency with
  | some v => if v = 0 then s.latency else v
  | none => s.latency

/-- Node ids in first-appearance order (grouping pass of
`generateNodePerformanceFromShards`). -/
def nodeKeys (shards : List ShardPerformance) : List String :=
  dedupKeys (shards.map (·.nodeId))

def nodeGroup (shards : List ShardPerformance) (nodeId : String) : List ShardPerformance :=
  shards.filter (fun s => s.nodeId == nodeId)

/-- Per-node body of `generateNodePerformanceFromShards`.  JS
`shard.latencyDistribution || [shard.latency]` falls back only on a missing
field (an empty array is truthy), matching `Option.getD`. -/
def generateNodePerformanceForNode (shards : List ShardPerformance)
    (nodeId : String) : NodePerformance :=
  let nodeShards := nodeGroup shards nodeId
  let allLatencies := nodeShards.flatMap (fun s => s.latencyDistribution.getD [s.latency])
  let sortedLatencies := jsSortNums allLatencies
  let avgLatency := sortedLatencies.sum / (sortedLatencies.length : ℚ)
  let maxShardP99 := listMax (nodeShards.map shardP99OrLatency)
  -- Node performance cannot be better than its worst shard
  let nodeAvgLatency := max avgLatency (maxShardP99 * 0.8)
  let status : NodeStatus :=
    if 8000 < nodeAvgLatency then .failed
    else if 4000 < nodeAvgLatency then .degraded
    else .healthy
  { nodeId := nodeId
    avgLatency := nodeAvgLatency
    status := status
    p50Latency := some (percentile sortedLatencies 0.5)
    p90Latency := some (percentile sortedLatencies 0.9)
    p95Latency := some (percentile sortedLatencies 0.95)
    p99Latency := some (percentile sortedLatencies 0.99) }

def generateNodePerformanceFromShards (shards : List ShardPerformance) : List NodePerformance :=
  (nodeKeys shards).map (generateNodePerformanceForNode shards)

/-! ### Multi-query shard aggregation
From the `aggregatedShardData` memo of `ShardHeatMapAggregated` in
`src/public/pages/LatencyAnalysis/components/ShardHeatMap.tsx`. -/

structure ShardDataPoint where
  latency : ℚ
  status : ShardStatus
  docCount : ℚ
  nodeId : String
deriving DecidableEq

instance : Inhabited ShardDataPoint := ⟨⟨0, .success, 0, ""⟩⟩

structure AggregatedShardData where
  shardId : String
  nodeId : String
  p50Latency : ℚ
  p90Latency : ℚ
  p95Latency : ℚ
  p99Latency : ℚ
  avgLatency : ℚ
  medianLatency : ℚ
  maxLatency : ℚ
  minLatency : ℚ
  queryCount : ℚ
  successRate : ℚ
  totalDocCount : ℚ
  avgDocCount : ℚ
deriving DecidableEq

instance : Inhabited AggregatedShardData :=
  ⟨⟨"", "", 0, 0, 0, 0, 0, 0, 0, 0, 0, 0, 0, 0⟩⟩

/-- Shard ids in first-appearance order across all records. -/
def shardKeys (records : List LatencyRecord) : List String :=
  dedupKeys (records.flatMap (fun r => r.shardPerformance.map (·.shardId)))

/-- The per-shard data pool: for each record and each matching shard entry,
one `ShardDataPoint` per latency measurement
(`shard.latencyDistribution || [shard.latency]`). -/
def shardData (records : List LatencyRecord) (key : String) : List ShardDataPoint :=
  records.flatMap fun r =>
    (r.shardPerformance.filter (fun s => s.shardId == key)).flatMap fun shard =>
      (shard.latencyDistribution.getD [shard.latency]).map fun lat =>
        ⟨lat, shard.status, shard.docCount, shard.nodeId⟩

/-- Per-key body of the `aggregatedShardData` memo.  `originalShard` is
looked up in `records[0]` only (`records[0]?.shardPerformance.find(...)`);
`originalShard?.pXXLatency ?? percentile(...)` is `Option.getD` (JS `??`
falls back only on null/undefined, so a supplied `0` is kept). -/
def aggShardFor (records : List LatencyRecord) (shardId : String) : AggregatedShardData :=
  let data := shardData records shardId
  let latencies := jsSortNums (data.map (·.latency))
  let docCounts := data.map (·.docCount)
  let successCount := (data.filter (fun d => d.status == ShardStatus.success)).length
  let nodeId := (data.headD default).nodeId
  let originalShard := (records.headD default).shardPerformance.find?
    (fun s => s.shardId == shardId)
  let distLen := ((originalShard.bind (·.latencyDistribution)).map List.length).getD 0
  { shardId := shardId
    nodeId := nodeId
    p50Latency := (originalShard.bind (·.p50Latency)).getD (percentile latencies 0.5)
    p90Latency := (originalShard.bind (·.p90Latency)).getD (percentile latencies 0.9)
    p95Latency := (originalShard.bind (·.p95Latency)).getD (percentile latencies 0.95)
    p99Latency := (originalShard.bind (·.p99Latency)).getD (percentile latencies 0.99)
    avgLatency := latencies.sum / (latencies.length : ℚ)
    medianLatency := (originalShard.bind (·.p50Latency)).getD (percentile latencies 0.5)
    maxLatency := listMax latencies
    minLatency := listMin latencies
    queryCount := ((⌈(data.length : ℚ) / (((if distLen = 0 then 1 else distLen) : ℕ) : ℚ)⌉ : ℤ) : ℚ)
    successRate := ((successCount : ℚ) / (data.length : ℚ)) * 100
    totalDocCount := docCounts.sum
    avgDocCount := docCounts.sum / (docCounts.length : ℚ) }

/-- The `aggregatedShardData` memo: empty on no records, otherwise one
aggregate per shard id, sorted by shard id
(`.sort((a, b) => a.shardId.localeCompare(b.shardId))`, which on the ASCII
ids used here is lexicographic order). -/
def aggregatedShardData (records : List LatencyRecord) : List AggregatedShardData :=
  if records.length = 0 then []
  else List.insertionSort (fun a b => a.shardId ≤ b.shardId)
    ((shardKeys records).map (aggShardFor records))

/-! ### Multi-query node aggregation
From the `aggregatedNodeData` memo of `ShardHeatMapAggregated` in
`ShardHeatMap.tsx`. -/

inductive AggregatedNodeStatus
  | excellent
  | good
  | degraded
  | critical
deriving DecidableEq

structure NodeDataPoint where
  latency : ℚ
  status : NodeStatus
deriving DecidableEq

structure AggregatedNodeData where
  nodeId : String
  p50Latency : ℚ
  p90Latency : ℚ
  p95Latency : ℚ
  p99Latency : ℚ
  avgLatency : ℚ
  shardCount : ℕ
  queryCount : ℕ
  healthScore : ℚ
  status : AggregatedNodeStatus
deriving DecidableEq

instance : Inhabited AggregatedNodeData :=
  ⟨⟨"", 0, 0, 0, 0, 0, 0, 0, 0, .excellent⟩⟩

def nodeDataKeys (records : List LatencyRecord) : List String :=
  dedupKeys (records.flatMap (fun r => r.nodePerformance.map (·.nodeId)))

def nodeData (records : List LatencyRecord) (nodeId : String) : List NodeDataPoint :=
  records.flatMap fun r =>
    (r.nodePerformance.filter (fun n => n.nodeId == nodeId)).map fun n =>
      ⟨n.avgLatency, n.status⟩

/-- Per-key body of the `aggregatedNodeData` memo. -/
def aggNodeFor (records : List LatencyRecord) (nodeId : String) : AggregatedNodeData :=
  let data := nodeData records nodeId
  let latencies := jsSortNums (data.map (·.latency))
  let avgLatency := latencies.sum / (latencies.length : ℚ)
  let shardCount := ((aggregatedShardData records).filter (fun s => s.nodeId == nodeId)).length
  let healthyCount := (data.filter (fun d => d.status == NodeStatus.healthy)).length
  let healthScore := ((healthyCount : ℚ) / (data.length : ℚ)) * 100
  let originalNode := (records.headD default).nodePerformance.find?
    (fun n => n.nodeId == nodeId)
  let status : AggregatedNodeStatus :=
    if 5000 < avgLatency ∨ healthScore < 50 then .critical
    else if 2000 < avgLatency ∨ healthScore < 70 then .degraded
    else if 1000 < avgLatency ∨ healthScore < 90 then .good
    else .excellent
  { nodeId := nodeId
    p50Latency := (originalNode.bind (·.p50Latency)).getD (percentile latencies 0.5)
    p90Latency := (originalNode.bind (·.p90Latency)).getD (percentile latencies 0.9)
    p95Latency := (originalNode.bind (·.p95Latency)).getD (percentile latencies 0.95)
    p99Latency := (originalNode.bind (·.p99Latency)).getD (percentile latencies 0.99)
    avgLatency := avgLatency
    shardCount := shardCount
    queryCount := data.length
    healthScore := healthScore
    status := status }

def aggregatedNodeData (records : List LatencyRecord) : List AggregatedNodeData :=
  if records.length = 0 then []
  else List.insertionSort (fun a b => a.nodeId ≤ b.nodeId)
    ((nodeDataKeys records).map (aggNodeFor records))

/-! ### Rolling-window anomaly detection
From `calculateAnomalyBands` and the `anomalies` filter of
`HistoricalLatencyChart` (`src/public/pages/LatencyAnalysis/components/`,
provided as `src/unnamed/part_003`).  The source stores the band bounds
`y0 = max(0, avg - 2 * stdDev)` and `y1 = avg + 2 * stdDev` with
`stdDev = sqrt(variance)`; to keep the embedding inside ℚ we store
`(avg, variance)` and phrase the two comparisons `y > y1` and `y < y0` in
the equivalent square-free form (justified over ℝ by
`above_band_iff_square_form` and `below_band_iff_square_form` below). -/

structure DataPoint where
  x : ℚ
  y : ℚ
deriving DecidableEq

instance : Inhabited DataPoint := ⟨⟨0, 0⟩⟩

structure BandStats where
  x : ℚ
  avg : ℚ
  variance : ℚ
deriving DecidableEq

instance : Inhabited BandStats := ⟨⟨0, 0, 0⟩⟩

def windowSize : ℕ := 10

/-- One band entry: the trailing window
`latencyData.slice(i - windowSize + 1, i + 1)` (the `windowSize` points
ending at index `i`, inclusive), its mean and its population variance
(both divided by `windowSize`). -/
def bandAt (l : List DataPoint) (i : ℕ) : BandStats :=
  let window := (l.drop (i - (windowSize - 1))).take windowSize
  let avg := (window.map (·.y)).sum / (windowSize : ℚ)
  let variance := (window.map (fun point => (point.y - avg) ^ 2)).sum / (windowSize : ℚ)
  ⟨(l.getD i default).x, avg, variance⟩

/-- The `for (let i = windowSize - 1; i < latencyData.length; i++)` loop. -/
def calculateAnomalyBands (l : List DataPoint) : List BandStats :=
  ((List.range l.length).drop (windowSize - 1)).map (bandAt l)

/-- `point.y > band.y1`, i.e. `y > avg + 2 * sqrt(variance)`, in square-free
form. -/
def aboveUpperBand (b : BandStats) (y : ℚ) : Bool :=
  decide (b.avg < y) && decide (4 * b.variance < (y - b.avg) ^ 2)

/-- `point.y < band.y0`, i.e. `y < max(0, avg - 2 * sqrt(variance))`, in
square-free form (`y < max(0, c)` iff `y < 0` or `y < c`). -/
def belowLowerBand (b : BandStats) (y : ℚ) : Bool :=
  decide (y < 0) || (decide (y < b.avg) && decide (4 * b.variance < (b.avg - y) ^ 2))

/-- The `anomalies` filter: skip the first 9 indices, then test the point
against `anomalyBands[index - 9]`. -/
def anomalies (l : List DataPoint) : List DataPoint :=
  (l.enum.filter (fun pair =>
    if pair.1 < 9 then false
    else
      let band := (calculateAnomalyBands l).getD (pair.1 - 9) default
      aboveUpperBand band pair.2.y || belowLowerBand band pair.2.y)).map Prod.snd

/-- Modelled from the spec's words for claim C5 (amended): a point at index
`i` is flagged exactly when `i ≥ windowSize - 1` and its value falls outside
`[max(0, mean - 2σ), mean + 2σ]`, where mean and population standard
deviation are computed over the trailing `windowSize` points inclusive of
the current point. -/
def specAnomalyFlag (l : List DataPoint) (i : ℕ) (y : ℚ) : Bool :=
  decide (windowSize - 1 ≤ i) &&
    (aboveUpperBand (bandAt l i) y || belowLowerBand (bandAt l i) y)

/-- Modelled from the spec's words for claim C5 (as written, without the
clamp): the value falls outside `[mean - 2σ, mean + 2σ]`, in square-free
form. -/
def specUnclampedFlag (b : BandStats) (y : ℚ) : Bool :=
  (decide (b.avg < y) && decide (4 * b.variance < (y - b.avg) ^ 2)) ||
    (decide (y < b.avg) && decide (4 * b.variance < (b.avg - y) ^ 2))

/-! ### Concrete fixtures used by witnesses and counterexamples -/

/-- Three shards on one node with p99 values 100, 200 and 5000 and raw
samples 100, 200 and 2100 (mean 800). -/
def exampleNodeShards : List ShardPerformance :=
  [⟨"products-0", "node-1", 100, .success, 1, none, none, none, some 100, some [100]⟩,
   ⟨"products-1", "node-1", 200, .success, 1, none, none, none, some 200, some [200]⟩,
   ⟨"products-2", "node-1", 2100, .success, 1, none, none, none, some 5000, some [2100]⟩]

/-- A single fast shard whose status is 'failed'. -/
def exampleFailedShard : List ShardPerformance :=
  [⟨"shard-0", "node-1", 100, .failed, 10, none, none, none, none, none⟩]

/-- One record whose node report has an aggregate latency of 6000 ms. -/
def exampleSlowNodeRecords : List LatencyRecord :=
  [⟨[], [⟨"node-1", 6000, .healthy, none, none, none, none⟩]⟩]

/-- Two records for the same shard id: the first supplies no pre-computed
percentiles, the second supplies p50 = 42. -/
def examplePrecomputedRecords : List LatencyRecord :=
  [⟨[⟨"shard-0", "node-1", 100, .success, 1, none, none, none, none, none⟩], []⟩,
   ⟨[⟨"shard-0", "node-1", 300, .success, 1, some 42, none, none, none, none⟩], []⟩]

/-- A single record with one shard observation and no pre-computed
percentiles. -/
def exampleSingleShardRecords : List LatencyRecord :=
  [⟨[⟨"shard-0", "node-1", 100, .success, 1, none, none, none, none, none⟩], []⟩]

/-- A ten-point series whose tenth value (-1) is inside the unclamped two
sigma band but below zero. -/
def exampleAnomalySeries : List DataPoint :=
  [⟨0, -10⟩, ⟨1, 10⟩, ⟨2, -10⟩, ⟨3, 10⟩, ⟨4, -10⟩,
   ⟨5, 10⟩, ⟨6, -10⟩, ⟨7, 10⟩, ⟨8, -10⟩, ⟨9, -1⟩]

/-! ## Helper lemmas -/

-- All five normalized fractions of the allocator are positive and sum to
-- exactly 1 (helper shared by the phase-allocation claims).
set_option maxHeartbeats 4000000 in
theorem allocation_fields (input : PhaseAllocationInput) :
    0 < (calculateDynamicPhaseAllocation input).parsing ∧
    0 < (calculateDynamicPhaseAllocation input).planning ∧
    0 < (calculateDynamicPhaseAllocation input).query ∧
    0 < (calculateDynamicPhaseAllocation input).fetch ∧
    0 < (calculateDynamicPhaseAllocation input).reduce ∧
    (calculateDynamicPhaseAllocation input).parsing +
      (calculateDynamicPhaseAllocation input).planning +
      (calculateDynamicPhaseAllocation input).query +
      (calculateDynamicPhaseAllocation input).fetch +
      (calculateDynamicPhaseAllocation input).reduce = 1 := by
  unfold calculateDynamicPhaseAllocation
  dsimp only
  split_ifs <;> norm_num

/-! ## Claims about the query-phase allocator -/

/-- Claim C2: for every totalLatency > 0 and every combination of complexity
signals, the phase fractions are renormalized by dividing each by their
post-adjustment sum, and the five returned phase durations sum to
totalLatency (exactly, in the rational model; hence within floating-point
epsilon). -/
theorem phase_durations_sum_to_total (totalLatency : ℚ) (h : 0 < totalLatency)
    (qc : QueryComplexity) (sc : ℕ) (rs : ℚ) (ha : Bool) :
    ((computePhaseTimingFromRecord totalLatency qc sc rs ha).map
      (fun ph => ph.duration)).sum = totalLatency := by
  obtain ⟨-, -, -, -, -, hsum⟩ := allocation_fields ⟨totalLatency, qc, sc, rs, ha⟩
  simp only [computePhaseTimingFromRecord, List.map_cons, List.map_nil, List.sum_cons,
    List.sum_nil]
  linear_combination totalLatency * hsum

/-- Witness for C2 at totalLatency = 1000 and the simple signal combination. -/
theorem phase_durations_sum_to_total_witness :
    0 < (1000 : ℚ) ∧
    ((computePhaseTimingFromRecord 1000 ⟨.simple, .index⟩ 1 10 false).map
      (fun ph => ph.duration)).sum = 1000 :=
  ⟨by norm_num, phase_durations_sum_to_total 1000 (by norm_num) ⟨.simple, .index⟩ 1 10 false⟩

/-- Claim C6: the five execution phases are contiguous and non-overlapping:
phase 0 starts at 0 and each later phase starts where the previous one
ends. -/
theorem phases_contiguous (totalLatency : ℚ) (qc : QueryComplexity) (sc : ℕ)
    (rs : ℚ) (ha : Bool) :
    ((computePhaseTimingFromRecord totalLatency qc sc rs ha).getD 0 default).startTime = 0 ∧
    (((computePhaseTimingFromRecord totalLatency qc sc rs ha).getD 1 default).startTime =
      ((computePhaseTimingFromRecord totalLatency qc sc rs ha).getD 0 default).startTime +
      ((computePhaseTimingFromRecord totalLatency qc sc rs ha).getD 0 default).duration) ∧
    (((computePhaseTimingFromRecord totalLatency qc sc rs ha).getD 2 default).startTime =
      ((computePhaseTimingFromRecord totalLatency qc sc rs ha).getD 1 default).startTime +
      ((computePhaseTimingFromRecord totalLatency qc sc rs ha).getD 1 default).duration) ∧
    (((computePhaseTimingFromRecord totalLatency qc sc rs ha).getD 3 default).startTime =
      ((computePhaseTimingFromRecord totalLatency qc sc rs ha).getD 2 default).startTime +
      ((computePhaseTimingFromRecord totalLatency qc sc rs ha).getD 2 default).duration) ∧
    (((computePhaseTimingFromRecord totalLatency qc sc rs ha).getD 4 default).startTime =
      ((computePhaseTimingFromRecord totalLatency qc sc rs ha).getD 3 default).startTime +
      ((computePhaseTimingFromRecord totalLatency qc sc rs ha).getD 3 default).duration) := by
  obtain ⟨-, -, -, -, -, hsum⟩ := allocation_fields ⟨totalLatency, qc, sc, rs, ha⟩
  refine ⟨by simp [computePhaseTimingFromRecord], ?_, ?_, ?_, ?_⟩ <;>
    simp only [computePhaseTimingFromRecord, List.getD_cons_zero, List.getD_cons_succ]
  · ring
  · ring
  · ring
  · linear_combination (-totalLatency) * hsum

/-- Claim C10: every phase fraction returned by the allocator is strictly
positive and the five fractions sum to 1; consequently, for every
totalLatency ≥ 0, every phase duration is non-negative and no greater than
totalLatency. -/
theorem allocation_safety (totalLatency : ℚ) (qc : QueryComplexity) (sc : ℕ)
    (rs : ℚ) (ha : Bool) :
    (0 < (calculateDynamicPhaseAllocation ⟨totalLatency, qc, sc, rs, ha⟩).parsing ∧
     0 < (calculateDynamicPhaseAllocation ⟨totalLatency, qc, sc, rs, ha⟩).planning ∧
     0 < (calculateDynamicPhaseAllocation ⟨totalLatency, qc, sc, rs, ha⟩).query ∧
     0 < (calculateDynamicPhaseAllocation ⟨totalLatency, qc, sc, rs, ha⟩).fetch ∧
     0 < (calculateDynamicPhaseAllocation ⟨totalLatency, qc, sc, rs, ha⟩).reduce ∧
     (calculateDynamicPhaseAllocation ⟨totalLatency, qc, sc, rs, ha⟩).parsing +
       (calculateDynamicPhaseAllocation ⟨totalLatency, qc, sc, rs, ha⟩).planning +
       (calculateDynamicPhaseAllocation ⟨totalLatency, qc, sc, rs, ha⟩).query +
       (calculateDynamicPhaseAllocation ⟨totalLatency, qc, sc, rs, ha⟩).fetch +
       (calculateDynamicPhaseAllocation ⟨totalLatency, qc, sc, rs, ha⟩).reduce = 1) ∧
    (0 ≤ totalLatency →
      ∀ ph ∈ computePhaseTimingFromRecord totalLatency qc sc rs ha,
        0 ≤ ph.duration ∧ ph.duration ≤ totalLatency) := by
  obtain ⟨h1, h2, h3, h4, h5, hsum⟩ := allocation_fields ⟨totalLatency, qc, sc, rs, ha⟩
  refine ⟨⟨h1, h2, h3, h4, h5, hsum⟩, fun htL ph hph => ?_⟩
  simp only [computePhaseTimingFromRecord, List.mem_cons, List.not_mem_nil, or_false] at hph
  rcases hph with h | h | h | h | h <;> subst h <;>
    refine ⟨mul_nonneg htL (by linarith), mul_le_of_le_one_right htL (by linarith)⟩

/-- Witness for C10 at totalLatency = 1 and the simple signal combination,
applied to the first phase of the returned list. -/
theorem allocation_safety_witness :
    0 ≤ (1 : ℚ) ∧
    (0 ≤ ((computePhaseTimingFromRecord 1 ⟨.simple, .index⟩ 1 10 false).headD default).duration ∧
      ((computePhaseTimingFromRecord 1 ⟨.simple, .index⟩ 1 10 false).headD default).duration ≤ 1) :=
  ⟨by norm_num,
    (allocation_safety 1 ⟨.simple, .index⟩ 1 10 false).2 (by norm_num) _
      (by simp [computePhaseTimingFromRecord])⟩

/-! ## Percentile calculator: helper lemmas -/

theorem jsSortNums_sorted (l : List ℚ) : List.Sorted (· ≤ ·) (jsSortNums l) :=
  List.sorted_insertionSort _ l

theorem jsSortNums_perm (l : List ℚ) : (jsSortNums l).Perm l :=
  List.perm_insertionSort _ l

theorem jsSortNums_length (l : List ℚ) : (jsSortNums l).length = l.length :=
  (jsSortNums_perm l).length_eq

theorem sorted_getD_mono (l : List ℚ) (hs : List.Sorted (· ≤ ·) l) {i j : ℕ}
    (hij : i ≤ j) (hj : j < l.length) : l.getD i 0 ≤ l.getD j 0 := by
  have hi : i < l.length := lt_of_le_of_lt hij hj
  rw [List.getD_eq_getElem l 0 hi, List.getD_eq_getElem l 0 hj]
  have h2 := List.Sorted.rel_get_of_le hs (a := ⟨i, hi⟩) (b := ⟨j, hj⟩)
    (Fin.mk_le_mk.mpr hij)
  simpa using h2

theorem percentile_eq_interpAt (l : List ℚ) (p : ℚ) (hne : l ≠ [])
    (hp0 : 0 ≤ p) (hp1 : p ≤ 1) :
    percentile l p = interpAt l (p * ((l.length : ℚ) - 1)) := by
  have hlen : l.length ≠ 0 := fun h => hne (List.length_eq_zero.mp h)
  have h1n : 1 ≤ l.length := Nat.one_le_iff_ne_zero.mpr hlen
  have hn1 : (0 : ℚ) ≤ (l.length : ℚ) - 1 := by
    have hc : (1 : ℚ) ≤ (l.length : ℚ) := by exact_mod_cast h1n
    linarith
  have hceil : ⌈p * ((l.length : ℚ) - 1)⌉ ≤ (l.length : ℤ) - 1 := by
    apply Int.ceil_le.mpr
    push_cast
    nlinarith
  have hnoup : ¬ ((l.length : ℤ) ≤ ⌈p * ((l.length : ℚ) - 1)⌉) := by omega
  simp only [percentile, interpAt, Int.fract, if_neg hlen, if_neg hnoup]

/-- For a nonempty list and `0 ≤ p ≤ 1`, the interpolation index rounds up
to an in-range position. -/
theorem ceil_index_lt_length (l : List ℚ) (p : ℚ) (hne : l ≠ [])
    (hp0 : 0 ≤ p) (hp1 : p ≤ 1) :
    (⌈p * ((l.length : ℚ) - 1)⌉).toNat < l.length := by
  have hlen : l.length ≠ 0 := fun h => hne (List.length_eq_zero.mp h)
  have h1n : 1 ≤ l.length := Nat.one_le_iff_ne_zero.mpr hlen
  have hn1 : (0 : ℚ) ≤ (l.length : ℚ) - 1 := by
    have hc : (1 : ℚ) ≤ (l.length : ℚ) := by exact_mod_cast h1n
    linarith
  have hceil : ⌈p * ((l.length : ℚ) - 1)⌉ ≤ (l.length : ℤ) - 1 := by
    apply Int.ceil_le.mpr
    push_cast
    nlinarith
  omega

theorem interpAt_bounds (l : List ℚ) (hs : List.Sorted (· ≤ ·) l) {x : ℚ}
    (h0 : 0 ≤ x) (hc : ⌈x⌉.toNat < l.length) :
    l.getD ⌊x⌋.toNat 0 ≤ interpAt l x ∧ interpAt l x ≤ l.getD ⌈x⌉.toNat 0 := by
  have hfc : ⌊x⌋ ≤ ⌈x⌉ := Int.floor_le_ceil x
  have htn : ⌊x⌋.toNat ≤ ⌈x⌉.toNat := Int.toNat_le_toNat hfc
  have hab : l.getD ⌊x⌋.toNat 0 ≤ l.getD ⌈x⌉.toNat 0 := sorted_getD_mono l hs htn hc
  have hw0 : 0 ≤ Int.fract x := Int.fract_nonneg x
  have hw1 : Int.fract x < 1 := Int.fract_lt_one x
  unfold interpAt
  constructor <;> nlinarith [hab, hw0, hw1]

theorem interpAt_mono (l : List ℚ) (hs : List.Sorted (· ≤ ·) l) {x y : ℚ}
    (h0 : 0 ≤ x) (hxy : x ≤ y) (hcy : ⌈y⌉.toNat < l.length) :
    interpAt l x ≤ interpAt l y := by
  rcases eq_or_lt_of_le hxy with rfl | hlt
  · exact le_refl _
  have h0y : 0 ≤ y := h0.trans hxy
  have hfl : ⌊x⌋ ≤ ⌊y⌋ := Int.floor_le_floor hxy
  have hcx : ⌈x⌉.toNat < l.length :=
    lt_of_le_of_lt (Int.toNat_le_toNat (Int.ceil_mono hxy)) hcy
  rcases le_or_lt ⌈x⌉ ⌊y⌋ with hc | hc
  · have h1 := (interpAt_bounds l hs h0 hcx).2
    have hfyc : ⌊y⌋.toNat < l.length :=
      lt_of_le_of_lt (Int.toNat_le_toNat (Int.floor_le_ceil y)) hcy
    have h2 : l.getD ⌈x⌉.toNat 0 ≤ l.getD ⌊y⌋.toNat 0 :=
      sorted_getD_mono l hs (Int.toNat_le_toNat hc) hfyc
    have h3 := (interpAt_bounds l hs h0y hcy).1
    linarith
  · have hfl2 : ⌊x⌋ = ⌊y⌋ := by
      have hc1 := Int.ceil_le_floor_add_one x
      omega
    have hfx : (⌊x⌋ : ℚ) < x := by
      rcases lt_or_eq_of_le (Int.floor_le x) with h | h
      · exact h
      · exfalso
        have hcfx : ⌈x⌉ = ⌊x⌋ := by
          rw [← h]
          simp
        omega
    have hcx1 : ⌈x⌉ = ⌊x⌋ + 1 := by
      have h1 : ⌊x⌋ < ⌈x⌉ := Int.lt_ceil.mpr hfx
      have h2 := Int.ceil_le_floor_add_one x
      omega
    have hfy : (⌊y⌋ : ℚ) < y := by
      rcases lt_or_eq_of_le (Int.floor_le y) with h | h
      · exact h
      · exfalso
        have h2 : ((⌊x⌋ : ℤ) : ℚ) = y := by rw [hfl2]; exact h
        have h3 := Int.floor_le x
        linarith
    have hcy1 : ⌈y⌉ = ⌊y⌋ + 1 := by
      have h1 : ⌊y⌋ < ⌈y⌉ := Int.lt_ceil.mpr hfy
      have h2 := Int.ceil_le_floor_add_one y
      omega
    have hw : Int.fract x ≤ Int.fract y := by
      simp only [Int.fract]
      rw [hfl2]
      linarith
    unfold interpAt
    rw [hcx1, hcy1, hfl2]
    have hilen : (⌊y⌋ + 1).toNat < l.length := by rw [← hcy1]; exact hcy
    have hab : l.getD ⌊y⌋.toNat 0 ≤ l.getD (⌊y⌋ + 1).toNat 0 :=
      sorted_getD_mono l hs (by omega) hilen
    have hw0 : 0 ≤ Int.fract x := Int.fract_nonneg x
    have hw1 : Int.fract y < 1 := Int.fract_lt_one y
    nlinarith [mul_nonneg (sub_nonneg.mpr hw) (sub_nonneg.mpr hab)]

theorem percentile_mono (l : List ℚ) (hs : List.Sorted (· ≤ ·) l) {p q : ℚ}
    (hp0 : 0 ≤ p) (hpq : p ≤ q) (hq1 : q ≤ 1) :
    percentile l p ≤ percentile l q := by
  rcases eq_or_ne l [] with rfl | hne
  · simp [percentile]
  have hq0 : 0 ≤ q := hp0.trans hpq
  have hp1 : p ≤ 1 := hpq.trans hq1
  rw [percentile_eq_interpAt l p hne hp0 hp1, percentile_eq_interpAt l q hne hq0 hq1]
  have h1n : 0 < l.length := List.length_pos.mpr hne
  have hn1 : (0 : ℚ) ≤ (l.length : ℚ) - 1 := by
    have hc : (1 : ℚ) ≤ (l.length : ℚ) := by exact_mod_cast h1n
    linarith
  exact interpAt_mono l hs (mul_nonneg hp0 hn1) (mul_le_mul_of_nonneg_right hpq hn1)
    (ceil_index_lt_length l q hne hq0 hq1)

theorem le_foldl_max (l : List ℚ) (init : ℚ) : init ≤ l.foldl max init := by
  induction l generalizing init with
  | nil => exact le_refl _
  | cons a l ih => exact le_trans (le_max_left init a) (ih (max init a))

theorem mem_le_foldl_max (l : List ℚ) (init a : ℚ) (h : a ∈ l) :
    a ≤ l.foldl max init := by
  induction l generalizing init with
  | nil => cases h
  | cons b l ih =>
    rcases List.mem_cons.mp h with rfl | h2
    · exact le_trans (le_max_right init a) (le_foldl_max l (max init a))
    · exact ih (max init b) h2

theorem mem_le_listMax (l : List ℚ) (a : ℚ) (h : a ∈ l) : a ≤ listMax l :=
  mem_le_foldl_max l (l.headD 0) a h

theorem foldl_min_le (l : List ℚ) (init : ℚ) : l.foldl min init ≤ init := by
  induction l generalizing init with
  | nil => exact le_refl _
  | cons a l ih => exact le_trans (ih (min init a)) (min_le_left init a)

theorem foldl_min_le_mem (l : List ℚ) (init a : ℚ) (h : a ∈ l) :
    l.foldl min init ≤ a := by
  induction l generalizing init with
  | nil => cases h
  | cons b l ih =>
    rcases List.mem_cons.mp h with rfl | h2
    · exact le_trans (foldl_min_le l (min init a)) (min_le_right init a)
    · exact ih (min init b) h2

theorem listMin_le_mem (l : List ℚ) (a : ℚ) (h : a ∈ l) : listMin l ≤ a :=
  foldl_min_le_mem l (l.headD 0) a h

theorem getD_mem (l : List ℚ) {i : ℕ} (h : i < l.length) : l.getD i 0 ∈ l := by
  rw [List.getD_eq_getElem l 0 h]
  exact List.getElem_mem h

theorem percentile_le_listMax (l : List ℚ) (hs : List.Sorted (· ≤ ·) l)
    (hne : l ≠ []) {p : ℚ} (hp0 : 0 ≤ p) (hp1 : p ≤ 1) :
    percentile l p ≤ listMax l := by
  rw [percentile_eq_interpAt l p hne hp0 hp1]
  have h1n : 0 < l.length := List.length_pos.mpr hne
  have hn1 : (0 : ℚ) ≤ (l.length : ℚ) - 1 := by
    have hc : (1 : ℚ) ≤ (l.length : ℚ) := by exact_mod_cast h1n
    linarith
  have hceil := ceil_index_lt_length l p hne hp0 hp1
  exact le_trans (interpAt_bounds l hs (mul_nonneg hp0 hn1) hceil).2
    (mem_le_listMax _ _ (getD_mem _ hceil))

theorem listMin_le_percentile (l : List ℚ) (hs : List.Sorted (· ≤ ·) l)
    (hne : l ≠ []) {p : ℚ} (hp0 : 0 ≤ p) (hp1 : p ≤ 1) :
    listMin l ≤ percentile l p := by
  rw [percentile_eq_interpAt l p hne hp0 hp1]
  have h1n : 0 < l.length := List.length_pos.mpr hne
  have hn1 : (0 : ℚ) ≤ (l.length : ℚ) - 1 := by
    have hc : (1 : ℚ) ≤ (l.length : ℚ) := by exact_mod_cast h1n
    linarith
  have hceil := ceil_index_lt_length l p hne hp0 hp1
  have hfloor : (⌊p * ((l.length : ℚ) - 1)⌋).toNat < l.length :=
    lt_of_le_of_lt (Int.toNat_le_toNat (Int.floor_le_ceil _)) hceil
  exact le_trans (listMin_le_mem _ _ (getD_mem _ hfloor))
    (interpAt_bounds l hs (mul_nonneg hp0 hn1) hceil).1

/-! ## Claims about the percentile calculator -/

/-- Claim C1 counterexample: the percentile function does not sort its input,
so it is not invariant under permutation of an unsorted input: on the
permutation [30, 10, 20] of [10, 20, 30] it returns 10 at p = 1/2 instead of
the median 20. -/
theorem percentile_perm_counterexample :
    [(30 : ℚ), 10, 20].Perm [10, 20, 30] ∧
    percentile [(30 : ℚ), 10, 20] (1/2) = 10 ∧
    percentile [(10 : ℚ), 20, 30] (1/2) = 20 := by
  refine ⟨(List.Perm.swap 10 30 [20]).trans (List.Perm.cons 10 (List.Perm.swap 20 30 [])), ?_, ?_⟩ <;>
    · have h1 : ⌊(1 : ℚ)⌋ = 1 := by norm_num
      have h2 : ⌈(1 : ℚ)⌉ = 1 := by norm_num
      norm_num [percentile, h1, h2]

/-- Claim C1 (amended): the percentile function expects its caller to sort;
after sorting, it is invariant under permutation of the sample set:
`percentile (sort s') p = percentile (sort s) p` for any permutation `s'`
of `s`. -/
theorem percentile_perm_invariant_after_sort (s s' : List ℚ) (p : ℚ)
    (h : s.Perm s') :
    percentile (jsSortNums s) p = percentile (jsSortNums s') p := by
  have hsort : jsSortNums s = jsSortNums s' :=
    List.eq_of_perm_of_sorted
      ((jsSortNums_perm s).trans (h.trans (jsSortNums_perm s').symm))
      (jsSortNums_sorted s) (jsSortNums_sorted s')
  rw [hsort]

/-- Witness for the amended C1 at a concrete permutation pair. -/
theorem percentile_perm_invariant_after_sort_witness :
    [(30 : ℚ), 10, 20].Perm [10, 20, 30] ∧
    percentile (jsSortNums [(30 : ℚ), 10, 20]) (1/2) =
      percentile (jsSortNums [(10 : ℚ), 20, 30]) (1/2) := by
  have hperm : [(30 : ℚ), 10, 20].Perm [10, 20, 30] :=
    (List.Perm.swap 10 30 [20]).trans (List.Perm.cons 10 (List.Perm.swap 20 30 []))
  exact ⟨hperm, percentile_perm_invariant_after_sort _ _ _ hperm⟩

/-- Claim C4: the percentile function computes idx = p * (n-1),
lo = floor(idx), hi = ceil(idx), w = idx mod 1 and returns
sorted[lo] * (1-w) + sorted[hi] * w; it returns 0 on an empty array and
sorted[n-1] when hi is out of bounds; on the sorted input [10,20,30,40,50]
it returns 30 at p = 0.5 and 46 at p = 0.9. -/
theorem percentile_formula_and_values :
    (∀ p : ℚ, percentile [] p = 0) ∧
    (∀ (a : ℚ) (l : List ℚ) (p : ℚ),
      percentile (a :: l) p =
        (if ((a :: l).length : ℤ) ≤ ⌈p * (((a :: l).length : ℚ) - 1)⌉ then
          (a :: l).getD ((a :: l).length - 1) 0
         else
          (a :: l).getD (⌊p * (((a :: l).length : ℚ) - 1)⌋).toNat 0 *
              (1 - (p * (((a :: l).length : ℚ) - 1) -
                (⌊p * (((a :: l).length : ℚ) - 1)⌋ : ℚ))) +
            (a :: l).getD (⌈p * (((a :: l).length : ℚ) - 1)⌉).toNat 0 *
              (p * (((a :: l).length : ℚ) - 1) -
                (⌊p * (((a :: l).length : ℚ) - 1)⌋ : ℚ)))) ∧
    percentile [(10 : ℚ), 20, 30, 40, 50] (1/2) = 30 ∧
    percentile [(10 : ℚ), 20, 30, 40, 50] (9/10) = 46 := by
  refine ⟨fun p => by simp [percentile], fun a l p => by simp [percentile], ?_, ?_⟩
  · have h1 : ⌊(2 : ℚ)⌋ = 2 := by norm_num
    have h2 : ⌈(2 : ℚ)⌉ = 2 := by norm_num
    have h3 : (2 : ℤ).toNat = 2 := rfl
    norm_num [percentile, h1, h2, h3]
  · have h1 : ⌊(18/5 : ℚ)⌋ = 3 := by norm_num [Int.floor_eq_iff]
    have h2 : ⌈(18/5 : ℚ)⌉ = 4 := by norm_num [Int.ceil_eq_iff]
    have h3 : (3 : ℤ).toNat = 3 := rfl
    have h4 : (4 : ℤ).toNat = 4 := rfl
    norm_num [percentile, h1, h2, h3, h4]

/-! ## Node aggregation in the data loader: claims C3 and C8 -/

theorem mem_generateNodePerformanceFromShards {shards : List ShardPerformance}
    {np : NodePerformance} (h : np ∈ generateNodePerformanceFromShards shards) :
    ∃ key, key ∈ nodeKeys shards ∧ np = generateNodePerformanceForNode shards key := by
  unfold generateNodePerformanceFromShards at h
  obtain ⟨key, hkey, heq⟩ := List.mem_map.mp h
  exact ⟨key, hkey, heq.symm⟩

-- The health-status if-chain of `generateNodePerformanceFromShards`,
-- characterized by the aggregate latency alone.
theorem node_status_chain_iff (x : ℚ) :
    ((if 8000 < x then NodeStatus.failed
      else if 4000 < x then NodeStatus.degraded else NodeStatus.healthy) =
        NodeStatus.failed ↔ 8000 < x) ∧
    ((if 8000 < x then NodeStatus.failed
      else if 4000 < x then NodeStatus.degraded else NodeStatus.healthy) =
        NodeStatus.degraded ↔ (4000 < x ∧ x ≤ 8000)) ∧
    ((if 8000 < x then NodeStatus.failed
      else if 4000 < x then NodeStatus.degraded else NodeStatus.healthy) =
        NodeStatus.healthy ↔ x ≤ 4000) := by
  split_ifs with h1 h2
  · exact ⟨⟨fun _ => h1, fun _ => rfl⟩,
      ⟨fun h => h.elim, fun hc => absurd h1 (not_lt.mpr hc.2)⟩,
      ⟨fun h => h.elim, fun hc => absurd h1 (not_lt.mpr (hc.trans (by norm_num)))⟩⟩
  · exact ⟨⟨fun h => h.elim, fun hc => absurd hc h1⟩,
      ⟨fun _ => ⟨h2, not_lt.mp h1⟩, fun _ => rfl⟩,
      ⟨fun h => h.elim, fun hc => absurd h2 (not_lt.mpr hc)⟩⟩
  · exact ⟨⟨fun h => h.elim, fun hc => absurd hc h1⟩,
      ⟨fun h => h.elim, fun hc => absurd hc.1 h2⟩,
      ⟨fun _ => not_lt.mp h2, fun _ => rfl⟩⟩


/-- Claim C3: for every node group produced by the data loader, the node
aggregate latency equals max(poolAverage, maxShardP99 * 0.8), hence is at
least 80 percent of every constituent shard's p99; concretely, shards with
p99 values [100, 200, 5000] force a node aggregate latency of 4000 even
though the raw sample mean is 800. -/
theorem node_latency_floor :
    (∀ (shards : List ShardPerformance) (np : NodePerformance),
      np ∈ generateNodePerformanceFromShards shards →
      np.avgLatency =
        max ((jsSortNums ((nodeGroup shards np.nodeId).flatMap
              (fun s => s.latencyDistribution.getD [s.latency]))).sum /
            ((jsSortNums ((nodeGroup shards np.nodeId).flatMap
              (fun s => s.latencyDistribution.getD [s.latency]))).length : ℚ))
          (listMax ((nodeGroup shards np.nodeId).map shardP99OrLatency) * 0.8) ∧
        ∀ s ∈ nodeGroup shards np.nodeId,
          shardP99OrLatency s * 0.8 ≤ np.avgLatency) ∧
    ((generateNodePerformanceFromShards exampleNodeShards).headD default).avgLatency = 4000 ∧
    (((nodeGroup exampleNodeShards "node-1").flatMap
        (fun s => s.latencyDistribution.getD [s.latency])).sum /
      ((((nodeGroup exampleNodeShards "node-1").flatMap
        (fun s => s.latencyDistribution.getD [s.latency])).length : ℚ))) = 800 := by
  refine ⟨fun shards np hmem => ?_, ?_, ?_⟩
  · obtain ⟨key, hkey, rfl⟩ := mem_generateNodePerformanceFromShards hmem
    have hid : (generateNodePerformanceForNode shards key).nodeId = key := rfl
    rw [hid]
    have heq : (generateNodePerformanceForNode shards key).avgLatency =
        max ((jsSortNums ((nodeGroup shards key).flatMap
              (fun s => s.latencyDistribution.getD [s.latency]))).sum /
            ((jsSortNums ((nodeGroup shards key).flatMap
              (fun s => s.latencyDistribution.getD [s.latency]))).length : ℚ))
          (listMax ((nodeGroup shards key).map shardP99OrLatency) * 0.8) := rfl
    refine ⟨heq, fun s hs => ?_⟩
    have h1 : shardP99OrLatency s ≤ listMax ((nodeGroup shards key).map shardP99OrLatency) :=
      mem_le_listMax _ _ (List.mem_map_of_mem _ hs)
    have h2 : shardP99OrLatency s * 0.8 ≤
        listMax ((nodeGroup shards key).map shardP99OrLatency) * 0.8 := by nlinarith
    rw [heq]
    exact h2.trans (le_max_right _ _)
  · norm_num [generateNodePerformanceFromShards, generateNodePerformanceForNode, nodeKeys,
      dedupKeys, dedupKeysAux, exampleNodeShards, nodeGroup, jsSortNums, List.insertionSort,
      List.orderedInsert, listMax, shardP99OrLatency, max_def]
  · norm_num [exampleNodeShards, nodeGroup]

/-- Witness for the universally quantified part of C3 at the concrete
three-shard fixture. -/
theorem node_latency_floor_witness :
    (generateNodePerformanceForNode exampleNodeShards "node-1" ∈
      generateNodePerformanceFromShards exampleNodeShards) ∧
    (∀ s ∈ nodeGroup exampleNodeShards
        (generateNodePerformanceForNode exampleNodeShards "node-1").nodeId,
      shardP99OrLatency s * 0.8 ≤
        (generateNodePerformanceForNode exampleNodeShards "node-1").avgLatency) := by
  have hmem : generateNodePerformanceForNode exampleNodeShards "node-1" ∈
      generateNodePerformanceFromShards exampleNodeShards := by
    simp [generateNodePerformanceFromShards, nodeKeys, dedupKeys, dedupKeysAux,
      exampleNodeShards]
  exact ⟨hmem, ((node_latency_floor.1 exampleNodeShards _ hmem).2)⟩

/-- Claim C8 (amended): in the data loader's node aggregation the health
status is a function of the aggregate latency alone: 'failed' iff
avgLatency > 8000, 'degraded' iff 4000 < avgLatency <= 8000, and 'healthy'
iff avgLatency <= 4000; the underlying shard statuses are ignored. -/
theorem node_health_classification :
    ∀ (shards : List ShardPerformance) (np : NodePerformance),
      np ∈ generateNodePerformanceFromShards shards →
      ((np.status = NodeStatus.failed ↔ 8000 < np.avgLatency) ∧
       (np.status = NodeStatus.degraded ↔ (4000 < np.avgLatency ∧ np.avgLatency ≤ 8000)) ∧
       (np.status = NodeStatus.healthy ↔ np.avgLatency ≤ 4000)) := by
  intro shards np hmem
  obtain ⟨key, hkey, rfl⟩ := mem_generateNodePerformanceFromShards hmem
  have hst : (generateNodePerformanceForNode shards key).status =
      (if 8000 < (generateNodePerformanceForNode shards key).avgLatency then NodeStatus.failed
       else if 4000 < (generateNodePerformanceForNode shards key).avgLatency then
        NodeStatus.degraded
       else NodeStatus.healthy) := rfl
  rw [hst]
  exact node_status_chain_iff _

/-- Witness for the amended C8 at the concrete one-shard fixture. -/
theorem node_health_classification_witness :
    (generateNodePerformanceForNode exampleFailedShard "node-1" ∈
      generateNodePerformanceFromShards exampleFailedShard) ∧
    ((generateNodePerformanceForNode exampleFailedShard "node-1").status =
        NodeStatus.healthy ↔
      (generateNodePerformanceForNode exampleFailedShard "node-1").avgLatency ≤ 4000) := by
  have hmem : generateNodePerformanceForNode exampleFailedShard "node-1" ∈
      generateNodePerformanceFromShards exampleFailedShard := by
    simp [generateNodePerformanceFromShards, nodeKeys, dedupKeys, dedupKeysAux,
      exampleFailedShard]
  exact ⟨hmem, (node_health_classification exampleFailedShard _ hmem).2.2⟩

/-- Claim C8 counterexample: (a) the data loader classifies a node 'healthy'
even when every underlying shard observation has status 'failed' (healthy
fraction 0), so below the latency thresholds the status is not determined by
any healthy-fraction threshold over the status samples; (b) the ShardHeatMap
node aggregator maps an aggregate latency of 6000 ms - which the claim
places in the 'degraded' band 4000 < x <= 8000 - to 'critical' (its
thresholds are 5000/2000/1000 and its status vocabulary has no 'failed'). -/
theorem node_health_counterexample :
    (∀ s ∈ exampleFailedShard, s.status = ShardStatus.failed) ∧
    ((generateNodePerformanceFromShards exampleFailedShard).headD default).status =
      NodeStatus.healthy ∧
    4000 < ((aggregatedNodeData exampleSlowNodeRecords).headD default).avgLatency ∧
    ((aggregatedNodeData exampleSlowNodeRecords).headD default).avgLatency ≤ 8000 ∧
    ((aggregatedNodeData exampleSlowNodeRecords).headD default).status =
      AggregatedNodeStatus.critical := by
  refine ⟨by simp [exampleFailedShard], ?_, ?_, ?_, ?_⟩
  · norm_num [generateNodePerformanceFromShards, generateNodePerformanceForNode, nodeKeys,
      dedupKeys, dedupKeysAux, exampleFailedShard, nodeGroup, jsSortNums, List.insertionSort,
      List.orderedInsert, listMax, shardP99OrLatency, max_def]
  all_goals
    norm_num [aggregatedNodeData, aggNodeFor, nodeData, nodeDataKeys, dedupKeys, dedupKeysAux,
      exampleSlowNodeRecords, jsSortNums, List.insertionSort, List.orderedInsert]

/-! ## Multi-query shard aggregation: claim C7 -/

theorem mem_aggregatedShardData {records : List LatencyRecord} {agg : AggregatedShardData}
    (h : agg ∈ aggregatedShardData records) :
    ∃ key, key ∈ shardKeys records ∧ agg = aggShardFor records key := by
  unfold aggregatedShardData at h
  by_cases hr : records.length = 0
  · rw [if_pos hr] at h
    cases h
  · rw [if_neg hr] at h
    have hperm := List.perm_insertionSort
      (fun a b : AggregatedShardData => a.shardId ≤ b.shardId)
      ((shardKeys records).map (aggShardFor records))
    obtain ⟨key, hkey, heq⟩ := List.mem_map.mp (hperm.mem_iff.mp h)
    exact ⟨key, hkey, heq.symm⟩

/-- Claim C7 (amended): the shard aggregator consults only the first
record's observation for a shard id.  If `records[0]` has an observation
for the id that supplies a pre-computed percentile, that value is reported;
otherwise the percentile is recomputed from the pooled samples - even when
an observation in a later record supplies one. -/
theorem precomputed_percentiles_first_record_only :
    ∀ (records : List LatencyRecord) (agg : AggregatedShardData),
      agg ∈ aggregatedShardData records →
      (∀ o, (records.headD default).shardPerformance.find?
          (fun s => s.shardId == agg.shardId) = some o →
        (∀ v, o.p50Latency = some v → agg.p50Latency = v) ∧
        (∀ v, o.p90Latency = some v → agg.p90Latency = v) ∧
        (∀ v, o.p95Latency = some v → agg.p95Latency = v) ∧
        (∀ v, o.p99Latency = some v → agg.p99Latency = v)) ∧
      ((((records.headD default).shardPerformance.find?
          (fun s => s.shardId == agg.shardId)).bind (fun s => s.p50Latency)) = none →
        agg.p50Latency = percentile
          (jsSortNums ((shardData records agg.shardId).map (fun d => d.latency))) 0.5) ∧
      ((((records.headD default).shardPerformance.find?
          (fun s => s.shardId == agg.shardId)).bind (fun s => s.p90Latency)) = none →
        agg.p90Latency = percentile
          (jsSortNums ((shardData records agg.shardId).map (fun d => d.latency))) 0.9) ∧
      ((((records.headD default).shardPerformance.find?
          (fun s => s.shardId == agg.shardId)).bind (fun s => s.p95Latency)) = none →
        agg.p95Latency = percentile
          (jsSortNums ((shardData records agg.shardId).map (fun d => d.latency))) 0.95) ∧
      ((((records.headD default).shardPerformance.find?
          (fun s => s.shardId == agg.shardId)).bind (fun s => s.p99Latency)) = none →
        agg.p99Latency = percentile
          (jsSortNums ((shardData records agg.shardId).map (fun d => d.latency))) 0.99) := by
  intro records agg hmem
  obtain ⟨key, hkey, rfl⟩ := mem_aggregatedShardData hmem
  have hid : (aggShardFor records key).shardId = key := rfl
  rw [hid]
  have h50 : (aggShardFor records key).p50Latency =
      (((records.headD default).shardPerformance.find? (fun s => s.shardId == key)).bind
        (fun s => s.p50Latency)).getD
        (percentile (jsSortNums ((shardData records key).map (fun d => d.latency))) 0.5) := rfl
  have h90 : (aggShardFor records key).p90Latency =
      (((records.headD default).shardPerformance.find? (fun s => s.shardId == key)).bind
        (fun s => s.p90Latency)).getD
        (percentile (jsSortNums ((shardData records key).map (fun d => d.latency))) 0.9) := rfl
  have h95 : (aggShardFor records key).p95Latency =
      (((records.headD default).shardPerformance.find? (fun s => s.shardId == key)).bind
        (fun s => s.p95Latency)).getD
        (percentile (jsSortNums ((shardData records key).map (fun d => d.latency))) 0.95) := rfl
  have h99 : (aggShardFor records key).p99Latency =
      (((records.headD default).shardPerformance.find? (fun s => s.shardId == key)).bind
        (fun s => s.p99Latency)).getD
        (percentile (jsSortNums ((shardData records key).map (fun d => d.latency))) 0.99) := rfl
  refine ⟨fun o ho => ?_, fun hn => ?_, fun hn => ?_, fun hn => ?_, fun hn => ?_⟩
  · refine ⟨fun v hv => ?_, fun v hv => ?_, fun v hv => ?_, fun v hv => ?_⟩
    · rw [h50, ho]
      simp [hv]
    · rw [h90, ho]
      simp [hv]
    · rw [h95, ho]
      simp [hv]
    · rw [h99, ho]
      simp [hv]
  · rw [h50, hn]
    rfl
  · rw [h90, hn]
    rfl
  · rw [h95, hn]
    rfl
  · rw [h99, hn]
    rfl

/-- Witness for the amended C7: a single-record, single-shard input with no
pre-computed percentile, whose aggregate p50 is recomputed from the pool. -/
theorem precomputed_percentiles_first_record_only_witness :
    (aggShardFor exampleSingleShardRecords "shard-0" ∈
      aggregatedShardData exampleSingleShardRecords) ∧
    ((((exampleSingleShardRecords.headD default).shardPerformance.find?
        (fun s => s.shardId == (aggShardFor exampleSingleShardRecords "shard-0").shardId)).bind
        (fun s => s.p50Latency)) = none) ∧
    (aggShardFor exampleSingleShardRecords "shard-0").p50Latency = percentile
      (jsSortNums ((shardData exampleSingleShardRecords
        (aggShardFor exampleSingleShardRecords "shard-0").shardId).map
        (fun d => d.latency))) 0.5 := by
  have hmem : aggShardFor exampleSingleShardRecords "shard-0" ∈
      aggregatedShardData exampleSingleShardRecords := by
    simp [aggregatedShardData, shardKeys, dedupKeys, dedupKeysAux, exampleSingleShardRecords,
      List.insertionSort, List.orderedInsert]
  have hn : (((exampleSingleShardRecords.headD default).shardPerformance.find?
      (fun s => s.shardId == (aggShardFor exampleSingleShardRecords "shard-0").shardId)).bind
      (fun s => s.p50Latency)) = none := by
    simp [exampleSingleShardRecords, aggShardFor, shardData, dedupKeys, dedupKeysAux]
  exact ⟨hmem, hn,
    (precomputed_percentiles_first_record_only exampleSingleShardRecords _ hmem).2.1 hn⟩

/-- Claim C7 counterexample: the second record supplies p50 = 42 for
shard-0, but the aggregator reports the recomputed pooled percentile 200,
because only the first record is consulted for pre-computed values. -/
theorem precomputed_percentile_counterexample :
    (((examplePrecomputedRecords.getD 1 default).shardPerformance.headD
        default).p50Latency = some 42) ∧
    ((aggregatedShardData examplePrecomputedRecords).headD default).p50Latency = 200 ∧
    (200 : ℚ) ≠ 42 := by
  refine ⟨by simp [examplePrecomputedRecords], ?_, by norm_num⟩
  have hf : ⌊(1/2 : ℚ)⌋ = 0 := by norm_num [Int.floor_eq_iff]
  have hc : ⌈(1/2 : ℚ)⌉ = 1 := by norm_num [Int.ceil_eq_iff]
  norm_num [aggregatedShardData, aggShardFor, shardData, shardKeys, dedupKeys, dedupKeysAux,
    examplePrecomputedRecords, jsSortNums, List.insertionSort, List.orderedInsert, percentile,
    hf, hc]

/-! ## Rolling-window anomaly detection: claim C5 -/

/-- Justification of the square-free upper-band comparison: for a
nonnegative variance, `y > avg + 2 * sqrt v` iff `avg < y` and
`4 * v < (y - avg)^2`. -/
theorem above_band_iff_square_form (v a y : ℝ) (hv : 0 ≤ v) :
    a + 2 * Real.sqrt v < y ↔ (a < y ∧ 4 * v < (y - a) ^ 2) := by
  have hs := Real.sqrt_nonneg v
  have hsq := Real.sq_sqrt hv
  constructor
  · intro h
    exact ⟨by nlinarith, by nlinarith⟩
  · rintro ⟨h1, h2⟩
    by_contra hno
    push_neg at hno
    nlinarith

/-- Justification of the square-free lower-band comparison: for a
nonnegative variance, `y < avg - 2 * sqrt v` iff `y < avg` and
`4 * v < (avg - y)^2`. -/
theorem below_band_iff_square_form (v a y : ℝ) (hv : 0 ≤ v) :
    y < a - 2 * Real.sqrt v ↔ (y < a ∧ 4 * v < (a - y) ^ 2) := by
  have hs := Real.sqrt_nonneg v
  have hsq := Real.sq_sqrt hv
  constructor
  · intro h
    exact ⟨by nlinarith, by nlinarith⟩
  · rintro ⟨h1, h2⟩
    by_contra hno
    push_neg at hno
    nlinarith

-- The band stored at position i - 9 of the bands array is the band of the
-- trailing window ending at index i.
theorem calculateAnomalyBands_getD (l : List DataPoint) (i : ℕ) (h9 : 9 ≤ i)
    (hi : i < l.length) :
    (calculateAnomalyBands l).getD (i - 9) default = bandAt l i := by
  unfold calculateAnomalyBands
  have hlen : i - 9 < (((List.range l.length).drop (windowSize - 1)).map (bandAt l)).length := by
    simp only [List.length_map, List.length_drop, List.length_range, windowSize]
    omega
  rw [List.getD_eq_getElem _ _ hlen, List.getElem_map]
  congr 1
  rw [List.getElem_drop, List.getElem_range]
  simp only [windowSize]
  omega

/-- Claim C5 (amended): the anomaly filter flags exactly the points at
index i >= 9 whose value falls outside the clamped band
[max(0, mean - 2 sigma), mean + 2 sigma], with mean and population standard
deviation over the trailing 10 points inclusive of the current point; the
output is a sublist of the input (the original ordering is preserved and no
point among the first 9 is ever included). -/
theorem anomaly_filter_spec (l : List DataPoint) :
    anomalies l =
      (l.enum.filter (fun q => specAnomalyFlag l q.1 q.2.y)).map Prod.snd ∧
    (anomalies l).Sublist l := by
  have hfilter : (l.enum.filter (fun pair =>
      if pair.1 < 9 then false
      else
        let band := (calculateAnomalyBands l).getD (pair.1 - 9) default
        aboveUpperBand band pair.2.y || belowLowerBand band pair.2.y)) =
      l.enum.filter (fun q => specAnomalyFlag l q.1 q.2.y) := by
    apply List.filter_congr
    intro q hq
    obtain ⟨i, pt⟩ := q
    have hi : i < l.length := (List.mem_enum hq).1
    by_cases h9 : i < 9
    · have h9w : ¬ (windowSize - 1 ≤ i) := by
        simp only [windowSize]
        omega
      simp [h9, specAnomalyFlag, h9w]
    · have h9a : 9 ≤ i := Nat.not_lt.mp h9
      have h9w : windowSize - 1 ≤ i := by
        simp only [windowSize]
        omega
      rw [if_neg h9, calculateAnomalyBands_getD l i h9a hi]
      simp [specAnomalyFlag, h9w]
  have heq : anomalies l =
      (l.enum.filter (fun q => specAnomalyFlag l q.1 q.2.y)).map Prod.snd := by
    unfold anomalies
    rw [hfilter]
  refine ⟨heq, ?_⟩
  rw [heq]
  have h2 : ((l.enum.filter (fun q => specAnomalyFlag l q.1 q.2.y)).map
      Prod.snd).Sublist (l.enum.map Prod.snd) :=
    List.Sublist.map Prod.snd (List.filter_sublist _)
  rw [List.enum_map_snd] at h2
  exact h2

/-- Claim C5 counterexample: the detector clamps the lower band at 0
(`Math.max(0, avg - 2 * stdDev)`), so on the ten-point series with values
[-10, 10, -10, 10, -10, 10, -10, 10, -10, -1] it flags the tenth point
(value -1 < 0) even though that value lies inside the unclamped band
[mean - 2 sigma, mean + 2 sigma]: the claim's "exactly when outside
[mean - 2 sigma, mean + 2 sigma]" is false as stated. -/
theorem anomaly_clamp_counterexample :
    anomalies exampleAnomalySeries = [⟨9, -1⟩] ∧
    specUnclampedFlag (bandAt exampleAnomalySeries 9) (-1) = false := by
  constructor
  · norm_num [anomalies, exampleAnomalySeries, calculateAnomalyBands, bandAt, windowSize,
      aboveUpperBand, belowLowerBand, List.enum, List.enumFrom]
  · norm_num [specUnclampedFlag, bandAt, exampleAnomalySeries, windowSize]

/-! ## Percentile-set ordering: claim C9 -/

/-- Claim C9: every percentile set the aggregators derive from a pooled
sample population (i.e. with no authoritative pre-computed value taken over)
satisfies p50 <= p90 <= p95 <= p99 <= max and min <= p50; for the node
aggregates of the data loader, p50 <= p90 <= p95 <= p99. -/
theorem percentile_set_monotone :
    (∀ (records : List LatencyRecord) (agg : AggregatedShardData),
      agg ∈ aggregatedShardData records →
      shardData records agg.shardId ≠ [] →
      ((((records.headD default).shardPerformance.find?
          (fun s => s.shardId == agg.shardId)).bind (fun s => s.p50Latency)) = none) →
      ((((records.headD default).shardPerformance.find?
          (fun s => s.shardId == agg.shardId)).bind (fun s => s.p90Latency)) = none) →
      ((((records.headD default).shardPerformance.find?
          (fun s => s.shardId == agg.shardId)).bind (fun s => s.p95Latency)) = none) →
      ((((records.headD default).shardPerformance.find?
          (fun s => s.shardId == agg.shardId)).bind (fun s => s.p99Latency)) = none) →
      (agg.p50Latency ≤ agg.p90Latency ∧ agg.p90Latency ≤ agg.p95Latency ∧
       agg.p95Latency ≤ agg.p99Latency ∧ agg.p99Latency ≤ agg.maxLatency ∧
       agg.minLatency ≤ agg.p50Latency)) ∧
    (∀ (shards : List ShardPerformance) (np : NodePerformance),
      np ∈ generateNodePerformanceFromShards shards →
      (np.p50Latency.getD 0 ≤ np.p90Latency.getD 0 ∧
       np.p90Latency.getD 0 ≤ np.p95Latency.getD 0 ∧
       np.p95Latency.getD 0 ≤ np.p99Latency.getD 0)) := by
  constructor
  · intro records agg hmem hne h50n h90n h95n h99n
    obtain ⟨key, hkey, rfl⟩ := mem_aggregatedShardData hmem
    have hid : (aggShardFor records key).shardId = key := rfl
    rw [hid] at hne h50n h90n h95n h99n
    have h50 : (aggShardFor records key).p50Latency =
        percentile (jsSortNums ((shardData records key).map (fun d => d.latency))) 0.5 := by
      have hfld : (aggShardFor records key).p50Latency =
          (((records.headD default).shardPerformance.find? (fun s => s.shardId == key)).bind
            (fun s => s.p50Latency)).getD
            (percentile (jsSortNums ((shardData records key).map (fun d => d.latency))) 0.5) :=
        rfl
      rw [hfld, h50n]
      rfl
    have h90 : (aggShardFor records key).p90Latency =
        percentile (jsSortNums ((shardData records key).map (fun d => d.latency))) 0.9 := by
      have hfld : (aggShardFor records key).p90Latency =
          (((records.headD default).shardPerformance.find? (fun s => s.shardId == key)).bind
            (fun s => s.p90Latency)).getD
            (percentile (jsSortNums ((shardData records key).map (fun d => d.latency))) 0.9) :=
        rfl
      rw [hfld, h90n]
      rfl
    have h95 : (aggShardFor records key).p95Latency =
        percentile (jsSortNums ((shardData records key).map (fun d => d.latency))) 0.95 := by
      have hfld : (aggShardFor records key).p95Latency =
          (((records.headD default).shardPerformance.find? (fun s => s.shardId == key)).bind
            (fun s => s.p95Latency)).getD
            (percentile (jsSortNums ((shardData records key).map (fun d => d.latency))) 0.95) :=
        rfl
      rw [hfld, h95n]
      rfl
    have h99 : (aggShardFor records key).p99Latency =
        percentile (jsSortNums ((shardData records key).map (fun d => d.latency))) 0.99 := by
      have hfld : (aggShardFor records key).p99Latency =
          (((records.headD default).shardPerformance.find? (fun s => s.shardId == key)).bind
            (fun s => s.p99Latency)).getD
            (percentile (jsSortNums ((shardData records key).map (fun d => d.latency))) 0.99) :=
        rfl
      rw [hfld, h99n]
      rfl
    have hmax : (aggShardFor records key).maxLatency =
        listMax (jsSortNums ((shardData records key).map (fun d => d.latency))) := rfl
    have hmin : (aggShardFor records key).minLatency =
        listMin (jsSortNums ((shardData records key).map (fun d => d.latency))) := rfl
    have hs := jsSortNums_sorted ((shardData records key).map (fun d => d.latency))
    have hlne : jsSortNums ((shardData records key).map (fun d => d.latency)) ≠ [] := by
      intro hempty
      apply hne
      have hlen := jsSortNums_length ((shardData records key).map (fun d => d.latency))
      rw [hempty] at hlen
      simp only [List.length_nil, List.length_map] at hlen
      exact List.length_eq_zero.mp hlen.symm
    rw [h50, h90, h95, h99, hmax, hmin]
    exact ⟨percentile_mono _ hs (by norm_num) (by norm_num) (by norm_num),
      percentile_mono _ hs (by norm_num) (by norm_num) (by norm_num),
      percentile_mono _ hs (by norm_num) (by norm_num) (by norm_num),
      percentile_le_listMax _ hs hlne (by norm_num) (by norm_num),
      listMin_le_percentile _ hs hlne (by norm_num) (by norm_num)⟩
  · intro shards np hmem
    obtain ⟨key, hkey, rfl⟩ := mem_generateNodePerformanceFromShards hmem
    have h50 : (generateNodePerformanceForNode shards key).p50Latency =
        some (percentile (jsSortNums ((nodeGroup shards key).flatMap
          (fun s => s.latencyDistribution.getD [s.latency]))) 0.5) := rfl
    have h90 : (generateNodePerformanceForNode shards key).p90Latency =
        some (percentile (jsSortNums ((nodeGroup shards key).flatMap
          (fun s => s.latencyDistribution.getD [s.latency]))) 0.9) := rfl
    have h95 : (generateNodePerformanceForNode shards key).p95Latency =
        some (percentile (jsSortNums ((nodeGroup shards key).flatMap
          (fun s => s.latencyDistribution.getD [s.latency]))) 0.95) := rfl
    have h99 : (generateNodePerformanceForNode shards key).p99Latency =
        some (percentile (jsSortNums ((nodeGroup shards key).flatMap
          (fun s => s.latencyDistribution.getD [s.latency]))) 0.99) := rfl
    rw [h50, h90, h95, h99]
    simp only [Option.getD_some]
    have hs := jsSortNums_sorted ((nodeGroup shards key).flatMap
      (fun s => s.latencyDistribution.getD [s.latency]))
    exact ⟨percentile_mono _ hs (by norm_num) (by norm_num) (by norm_num),
      percentile_mono _ hs (by norm_num) (by norm_num) (by norm_num),
      percentile_mono _ hs (by norm_num) (by norm_num) (by norm_num)⟩

/-- Witness for C9 at concrete single-observation fixtures. -/
theorem percentile_set_monotone_witness :
    (aggShardFor exampleSingleShardRecords "shard-0" ∈
      aggregatedShardData exampleSingleShardRecords) ∧
    shardData exampleSingleShardRecords
      (aggShardFor exampleSingleShardRecords "shard-0").shardId ≠ [] ∧
    ((aggShardFor exampleSingleShardRecords "shard-0").p50Latency ≤
        (aggShardFor exampleSingleShardRecords "shard-0").p90Latency ∧
      (aggShardFor exampleSingleShardRecords "shard-0").p90Latency ≤
        (aggShardFor exampleSingleShardRecords "shard-0").p95Latency ∧
      (aggShardFor exampleSingleShardRecords "shard-0").p95Latency ≤
        (aggShardFor exampleSingleShardRecords "shard-0").p99Latency ∧
      (aggShardFor exampleSingleShardRecords "shard-0").p99Latency ≤
        (aggShardFor exampleSingleShardRecords "shard-0").maxLatency ∧
      (aggShardFor exampleSingleShardRecords "shard-0").minLatency ≤
        (aggShardFor exampleSingleShardRecords "shard-0").p50Latency) ∧
    ((generateNodePerformanceForNode exampleFailedShard "node-1").p50Latency.getD 0 ≤
        (generateNodePerformanceForNode exampleFailedShard "node-1").p90Latency.getD 0 ∧
      (generateNodePerformanceForNode exampleFailedShard "node-1").p90Latency.getD 0 ≤
        (generateNodePerformanceForNode exampleFailedShard "node-1").p95Latency.getD 0 ∧
      (generateNodePerformanceForNode exampleFailedShard "node-1").p95Latency.getD 0 ≤
        (generateNodePerformanceForNode exampleFailedShard "node-1").p99Latency.getD 0) := by
  have hmem1 : aggShardFor exampleSingleShardRecords "shard-0" ∈
      aggregatedShardData exampleSingleShardRecords := by
    simp [aggregatedShardData, shardKeys, dedupKeys, dedupKeysAux, exampleSingleShardRecords,
      List.insertionSort, List.orderedInsert]
  have hid : (aggShardFor exampleSingleShardRecords "shard-0").shardId = "shard-0" := rfl
  have hne : shardData exampleSingleShardRecords
      (aggShardFor exampleSingleShardRecords "shard-0").shardId ≠ [] := by
    rw [hid]
    simp [shardData, exampleSingleShardRecords]
  have h50n : (((exampleSingleShardRecords.headD default).shardPerformance.find?
      (fun s => s.shardId ==
        (aggShardFor exampleSingleShardRecords "shard-0").shardId)).bind
      (fun s => s.p50Latency)) = none := by
    rw [hid]
    simp [exampleSingleShardRecords]
  have h90n : (((exampleSingleShardRecords.headD default).shardPerformance.find?
      (fun s => s.shardId ==
        (aggShardFor exampleSingleShardRecords "shard-0").shardId)).bind
      (fun s => s.p90Latency)) = none := by
    rw [hid]
    simp [exampleSingleShardRecords]
  have h95n : (((exampleSingleShardRecords.headD default).shardPerformance.find?
      (fun s => s.shardId ==
        (aggShardFor exampleSingleShardRecords "shard-0").shardId)).bind
      (fun s => s.p95Latency)) = none := by
    rw [hid]
    simp [exampleSingleShardRecords]
  have h99n : (((exampleSingleShardRecords.headD default).shardPerformance.find?
      (fun s => s.shardId ==
        (aggShardFor exampleSingleShardRecords "shard-0").shardId)).bind
      (fun s => s.p99Latency)) = none := by
    rw [hid]
    simp [exampleSingleShardRecords]
  have hmem2 : generateNodePerformanceForNode exampleFailedShard "node-1" ∈
      generateNodePerformanceFromShards exampleFailedShard := by
    simp [generateNodePerformanceFromShards, nodeKeys, dedupKeys, dedupKeysAux,
      exampleFailedShard]
  exact ⟨hmem1, hne,
    percentile_set_monotone.1 exampleSingleShardRecords _ hmem1 hne h50n h90n h95n h99n,
    percentile_set_monotone.2 exampleFailedShard _ hmem2⟩

end QueryInsights
